import Mathlib

/-!
Verification development for the realm-js schema parser
(`src/js_schema.hpp`).  The C++ code is a template over a host-value
abstraction layer (`js_types.hpp`, external to the parser per the spec);
host values are embedded here as the inductive type `JSValue`, host-layer
accessors as executable functions on it, and the four parser entry points
`dict_for_property_array`, `parse_property`, `parse_object_schema` and
`parse_schema` as functions returning `Except String` results together
with the caller-owned output maps they mutate by reference.
-/

namespace RealmJS

/-- A host (JavaScript) value: the dynamic values the parser inspects.
`ctor` stands for a constructor/class-like callable carrying named fields
(such as its `schema` property). -/
inductive JSValue where
  | undefined : JSValue
  | boolean : Bool → JSValue
  | num : Int → JSValue
  | str : String → JSValue
  | arr : List JSValue → JSValue
  | obj : List (String × JSValue) → JSValue
  | ctor : List (String × JSValue) → JSValue

/-- Association-list lookup, first match wins (a JS object has unique
keys, so on faithfully modelled inputs at most one match exists). -/
def alistFind {α : Type} : List (String × α) → String → Option α
  | [], _ => none
  | (k, v) :: rest, key => if k = key then some v else alistFind rest key

/-- `std::map::emplace`: inserts only when the key is not yet present. -/
def emplace {α : Type} (m : List (String × α)) (k : String) (v : α) :
    List (String × α) :=
  match alistFind m k with
  | some _ => m
  | none => m ++ [(k, v)]

/-- JS property write used by `Object::set_property`: overwrite an
existing key in place, else append. -/
def setField : List (String × JSValue) → String → JSValue → List (String × JSValue)
  | [], key, v => [(key, v)]
  | (k, w) :: rest, key, v =>
    if k = key then (k, v) :: rest else (k, w) :: setField rest key v

/-- `Value::is_object`: true for plain objects, arrays and callables. -/
def JSValue.isObject : JSValue → Bool
  | .obj _ => true
  | .arr _ => true
  | .ctor _ => true
  | _ => false

/-- `Value::is_array`. -/
def JSValue.isArray : JSValue → Bool
  | .arr _ => true
  | _ => false

/-- `Value::is_constructor`. -/
def JSValue.isConstructor : JSValue → Bool
  | .ctor _ => true
  | _ => false

/-- `Value::is_undefined`. -/
def JSValue.isUndefined : JSValue → Bool
  | .undefined => true
  | _ => false

/-- `Object::get_property` by name: absent fields read as `undefined`. -/
def JSValue.getProp : JSValue → String → JSValue
  | .obj fields, key => (alistFind fields key).getD .undefined
  | .ctor fields, key => (alistFind fields key).getD .undefined
  | _, _ => .undefined

/-- `Object::get_property` by index on an array. -/
def JSValue.getIndex : JSValue → Nat → JSValue
  | .arr elems, i => elems.getD i .undefined
  | _, _ => .undefined

/-- `Object::get_property_names`: the own enumerable field names, in
insertion order. -/
def JSValue.propNames : JSValue → List String
  | .obj fields => fields.map Prod.fst
  | .ctor fields => fields.map Prod.fst
  | _ => []

/-- Modelled from the spec: the host layer's validated string coercion
("validated string/boolean coercion with named-field error messages",
spec section 6); `js_types.hpp` is not among the sources.  A value that is
not a string raises a coercion error naming the field. -/
def validated_to_string_named (v : JSValue) (name : String) : Except String String :=
  match v with
  | .str s => .ok s
  | _ => .error ("\x27" ++ name ++ "\x27 must be of type: string")

/-- Modelled from the spec: unnamed variant of the validated string
coercion (`Value::validated_to_string` with no field name). -/
def validated_to_string (v : JSValue) : Except String String :=
  match v with
  | .str s => .ok s
  | _ => .error "JS value must be of type: string"

/-- Modelled from the spec: the host layer's validated boolean coercion,
named-field variant. -/
def validated_to_boolean_named (v : JSValue) (name : String) : Except String Bool :=
  match v with
  | .boolean b => .ok b
  | _ => .error ("\x27" ++ name ++ "\x27 must be of type: boolean")

/-- Modelled from the spec: unnamed validated boolean coercion. -/
def validated_to_boolean (v : JSValue) : Except String Bool :=
  match v with
  | .boolean b => .ok b
  | _ => .error "JS value must be of type: boolean"

/-- Modelled from the spec: `Value::validated_to_object` — the value
itself when it is object-like, an error otherwise. -/
def validated_to_object (v : JSValue) : Except String JSValue :=
  if v.isObject then .ok v else .error "JS value must be of type: object"

/-- `Object::validated_get_object(ctx, o, key, message)`: read the named
field and require it to be object-like, failing with the caller-supplied
message. -/
def validated_get_object (o : JSValue) (key : String) (message : String) :
    Except String JSValue :=
  let v := o.getProp key
  if v.isObject then .ok v else .error message

/-- `Object::validated_get_string(ctx, o, key)`. -/
def validated_get_string (o : JSValue) (key : String) : Except String String :=
  validated_to_string_named (o.getProp key) key

/-- Modelled from the spec: `Object::validated_get_length` — the host
layer's validated element count of an ordered container. -/
def validated_get_length (v : JSValue) : Except String Nat :=
  match v with
  | .arr elems => .ok elems.length
  | _ => .error "JS value must be of type: number"

/-- The closed enumeration of property kinds (`PropertyType` in the
object store; `property.hpp` is not among the sources, the spec's
Glossary lists exactly these kinds).  `Array` is the list kind, `Object`
the object-reference kind. -/
inductive PropertyType where
  | Bool | Int | Float | Double | String | Date | Data | Array | Object
deriving Repr, DecidableEq

/-- The parsed property record (the fields of the object store's
`Property` that the parser reads or writes; `property.hpp` is not among
the sources, fields follow spec section 3). -/
structure Property where
  name : String := ""
  type : PropertyType := .Bool
  object_type : String := ""
  is_primary : Bool := false
  is_indexed : Bool := false
  is_nullable : Bool := false
deriving Repr, DecidableEq

/-- The parsed object-type record (spec section 3; an absent primary key
is the empty string, as in the object store). -/
structure ObjectSchema where
  name : String := ""
  properties : List Property := []
  primary_key : String := ""
deriving Repr, DecidableEq

/-- Per-type map from property name to the extracted (protected) default
value. -/
abbrev ObjectDefaults := List (String × JSValue)

/-- Map from type name to its `ObjectDefaults`. -/
abbrev ObjectDefaultsMap := List (String × ObjectDefaults)

/-- Map from type name to its protected constructor reference. -/
abbrev ConstructorMap := List (String × JSValue)

/-- First stage of `parse_property` (js_schema.hpp lines 78–92): decide
between the descriptor (object) form and the bare form, read the `type`
string, and apply an explicit `optional` field to `is_nullable`.  Returns
the descriptor (when one was used), the type string and the partially
filled property. -/
def parse_property_head (attributes : JSValue) (property_name : String) :
    Except String (Option JSValue × String × Property) :=
  if attributes.isObject then
    match validated_get_string attributes "type" with
    | .error e => .error e
    | .ok type =>
      let optional_value := attributes.getProp "optional"
      if optional_value.isUndefined then
        .ok (some attributes, type, { name := property_name })
      else
        match validated_to_boolean_named optional_value "optional" with
        | .error e => .error e
        | .ok b => .ok (some attributes, type, { name := property_name, is_nullable := b })
  else
    match validated_to_string attributes with
    | .error e => .error e
    | .ok type => .ok (none, type, { name := property_name })

/-- Second stage of `parse_property` (js_schema.hpp lines 94–136): the
keyword dispatch on the type string. -/
def parse_property_type (property_object : Option JSValue) (type : String)
    (prop : Property) : Except String Property :=
  if type = "bool" then .ok { prop with type := .Bool }
  else if type = "int" then .ok { prop with type := .Int }
  else if type = "float" then .ok { prop with type := .Float }
  else if type = "double" then .ok { prop with type := .Double }
  else if type = "string" then .ok { prop with type := .String }
  else if type = "date" then .ok { prop with type := .Date }
  else if type = "data" then .ok { prop with type := .Data }
  else if type = "list" then
    match property_object with
    | none => .error "List property must specify \x27objectType\x27"
    | some po =>
      match validated_get_string po "objectType" with
      | .error e => .error e
      | .ok ot => .ok { prop with type := .Array, object_type := ot }
  else if type = "object" then
    match property_object with
    | none => .error "Object property must specify \x27objectType\x27"
    | some po =>
      match validated_get_string po "objectType" with
      | .error e => .error e
      | .ok ot => .ok { prop with type := .Object, is_nullable := true, object_type := ot }
  else
    .ok { prop with type := .Object, is_nullable := true, object_type := type }

/-- `Schema::parse_property` (js_schema.hpp lines 67–151).  The
caller-owned `object_defaults` map is threaded explicitly: mutations
performed before a later failure persist, exactly as the C++ by-reference
parameter does (the `default` extraction at line 141 precedes the
`indexed` coercion that can still throw at line 146). -/
def parse_property (attributes : JSValue) (property_name : String)
    (object_defaults : ObjectDefaults) : Except String Property × ObjectDefaults :=
  match parse_property_head attributes property_name with
  | .error e => (.error e, object_defaults)
  | .ok (property_object, type, prop0) =>
    match parse_property_type property_object type prop0 with
    | .error e => (.error e, object_defaults)
    | .ok prop =>
      match property_object with
      | none => (.ok prop, object_defaults)
      | some po =>
        let default_value := po.getProp "default"
        let defaults2 :=
          if default_value.isUndefined then object_defaults
          else emplace object_defaults prop.name default_value
        let indexed_value := po.getProp "indexed"
        if indexed_value.isUndefined then (.ok prop, defaults2)
        else
          match validated_to_boolean indexed_value with
          | .error e => (.error e, defaults2)
          | .ok b => (.ok { prop with is_indexed := b }, defaults2)

/-- The ordered-list (array) branch of the property loop
(js_schema.hpp lines 171–178): each element must be an object carrying
its own `name` field. -/
def parse_properties_array (elems : List JSValue)
    (object_defaults : ObjectDefaults) :
    Except String (List Property) × ObjectDefaults :=
  match elems with
  | [] => (.ok [], object_defaults)
  | e :: rest =>
    match validated_to_object e with
    | .error err => (.error err, object_defaults)
    | .ok po =>
      match validated_get_string po "name" with
      | .error err => (.error err, object_defaults)
      | .ok property_name =>
        match parse_property po property_name object_defaults with
        | (.error err, d) => (.error err, d)
        | (.ok p, d) =>
          match parse_properties_array rest d with
          | (.error err, d2) => (.error err, d2)
          | (.ok ps, d2) => (.ok (p :: ps), d2)

/-- The name-keyed branch of the property loop (js_schema.hpp lines
179–185): iterate the enumerated field names, reading each declaration
from the properties object. -/
def parse_properties_keyed (properties_object : JSValue) (names : List String)
    (object_defaults : ObjectDefaults) :
    Except String (List Property) × ObjectDefaults :=
  match names with
  | [] => (.ok [], object_defaults)
  | n :: rest =>
    match parse_property (properties_object.getProp n) n object_defaults with
    | (.error err, d) => (.error err, d)
    | (.ok p, d) =>
      match parse_properties_keyed properties_object rest d with
      | (.error err, d2) => (.error err, d2)
      | (.ok ps, d2) => (.ok (p :: ps), d2)

/-- The property-collection stage of `parse_object_schema`
(js_schema.hpp lines 170–185): array-shaped collections take the ordered
branch, everything else the keyed branch, starting from an empty
per-type defaults map. -/
def parse_properties (properties_object : JSValue) :
    Except String (List Property) × ObjectDefaults :=
  match properties_object with
  | .arr elems => parse_properties_array elems []
  | po => parse_properties_keyed po po.propNames []

/-- Flip `is_primary` on the first property with the given name
(the in-place `property->is_primary = true` through the pointer returned
by `primary_key_property()`). -/
def setPrimary : List Property → String → List Property
  | [], _ => []
  | p :: rest, key =>
    if p.name = key then { p with is_primary := true } :: rest
    else p :: setPrimary rest key

/-- Modelled from the spec: `ObjectSchema::primary_key_property` from the
object store (`schema.hpp`/`object_schema` sources are not among the
sources) — the contained Property whose name equals `primary_key`, if
any (spec section 3: `primary_key` "must equal the `name` of exactly one
contained Property"). -/
def primary_key_property_find (os : ObjectSchema) : Option Property :=
  os.properties.find? (fun p => p.name = os.primary_key)

/-- The constructor-unwrapping stage of `parse_object_schema`
(js_schema.hpp lines 160–164). -/
def resolve_constructor (v : JSValue) : Except String (Option JSValue × JSValue) :=
  if v.isConstructor then
    match validated_get_object v "schema"
        "Realm object constructor must have a \x27schema\x27 property." with
    | .error e => .error e
    | .ok so => .ok (some v, so)
  else .ok (none, v)

/-- The primary-key stage of `parse_object_schema` (js_schema.hpp lines
187–195). -/
def resolve_primary_key (os : ObjectSchema) (oso : JSValue) :
    Except String ObjectSchema :=
  let primary_value := oso.getProp "primaryKey"
  if primary_value.isUndefined then .ok os
  else
    match validated_to_string primary_value with
    | .error e => .error e
    | .ok pk =>
      let os2 : ObjectSchema := { os with primary_key := pk }
      match primary_key_property_find os2 with
      | none => .error ("Missing primary key property \x27" ++ pk ++ "\x27")
      | some _ => .ok { os2 with properties := setPrimary os2.properties pk }

/-- `Schema::parse_object_schema` (js_schema.hpp lines 153–205).  The two
caller-owned output maps are threaded explicitly; both insertions
(lines 198–202) happen only after every failure point, and the per-type
`object_defaults` accumulator is local until then. -/
def parse_object_schema (object_schema_object : JSValue)
    (defaults : ObjectDefaultsMap) (constructors : ConstructorMap) :
    Except String ObjectSchema × ObjectDefaultsMap × ConstructorMap :=
  match resolve_constructor object_schema_object with
  | .error e => (.error e, defaults, constructors)
  | .ok (object_constructor, oso) =>
    match validated_get_string oso "name" with
    | .error e => (.error e, defaults, constructors)
    | .ok name =>
      match validated_get_object oso "properties"
          "ObjectSchema must have a \x27properties\x27 object." with
      | .error e => (.error e, defaults, constructors)
      | .ok properties_object =>
        match parse_properties properties_object with
        | (.error e, _) => (.error e, defaults, constructors)
        | (.ok props, object_defaults) =>
          match resolve_primary_key { name := name, properties := props } oso with
          | .error e => (.error e, defaults, constructors)
          | .ok object_schema =>
            (.ok object_schema,
             emplace defaults object_schema.name object_defaults,
             match object_constructor with
             | some c => emplace constructors object_schema.name c
             | none => constructors)

/-- The loop body of `parse_schema` (js_schema.hpp lines 212–216),
recursing over the top-level array elements while threading the output
maps. -/
def parse_schema_aux (elems : List JSValue) (defaults : ObjectDefaultsMap)
    (constructors : ConstructorMap) :
    Except String (List ObjectSchema) × ObjectDefaultsMap × ConstructorMap :=
  match elems with
  | [] => (.ok [], defaults, constructors)
  | e :: rest =>
    match validated_to_object e with
    | .error err => (.error err, defaults, constructors)
    | .ok oso =>
      match parse_object_schema oso defaults constructors with
      | (.error err, d, c) => (.error err, d, c)
      | (.ok os, d, c) =>
        match parse_schema_aux rest d c with
        | (.error err, d2, c2) => (.error err, d2, c2)
        | (.ok rest2, d2, c2) => (.ok (os :: rest2), d2, c2)

/-- `Schema::parse_schema` (js_schema.hpp lines 207–219).  `realm::Schema`
is modelled from the spec as the ordered sequence of `ObjectSchema`
(spec section 3; `schema.hpp` is not among the sources). -/
def parse_schema (schema_object : JSValue) (defaults : ObjectDefaultsMap)
    (constructors : ConstructorMap) :
    Except String (List ObjectSchema) × ObjectDefaultsMap × ConstructorMap :=
  match validated_get_length schema_object with
  | .error e => (.error e, defaults, constructors)
  | .ok _ =>
    match schema_object with
    | .arr elems => parse_schema_aux elems defaults constructors
    | _ => (.ok [], defaults, constructors)

/-- The loop of `dict_for_property_array` (js_schema.hpp lines 59–62):
pair each property with the array element at the same position and write
it into the dict. -/
def fillDict : List Property → List JSValue → List (String × JSValue) →
    List (String × JSValue)
  | [], _, dict => dict
  | _ :: _, [], dict => dict
  | p :: ps, v :: vs, dict => fillDict ps vs (setField dict p.name v)

/-- `Schema::dict_for_property_array` (js_schema.hpp lines 49–65). -/
def dict_for_property_array (object_schema : ObjectSchema) (array : JSValue) :
    Except String (List (String × JSValue)) :=
  let count := object_schema.properties.length
  match validated_get_length array with
  | .error e => .error e
  | .ok len =>
    if count ≠ len then
      .error "Array must contain values for all object properties"
    else
      match array with
      | .arr elems => .ok (fillDict object_schema.properties elems [])
      | _ => .ok []

/-- Example three-property schema used by concrete test instances. -/
def sampleSchema3 : ObjectSchema :=
  { name := "T",
    properties := [{ name := "a", type := .Int },
                   { name := "b", type := .Int },
                   { name := "c", type := .Int }] }

/-! ### Basic lemmas about the property parser -/

/-- A host value that is either absent/undefined or a proper boolean: the
shapes under which the `optional`/`indexed` coercions cannot fail. -/
def undefOrBool (v : JSValue) : Prop := v = .undefined ∨ ∃ b, v = .boolean b

/-- The scalar keywords and the kinds they map to
(js_schema.hpp lines 94–114). -/
def scalar_kind (t : String) : Option PropertyType :=
  if t = "bool" then some .Bool
  else if t = "int" then some .Int
  else if t = "float" then some .Float
  else if t = "double" then some .Double
  else if t = "string" then some .String
  else if t = "date" then some .Date
  else if t = "data" then some .Data
  else none

theorem parse_property_head_ok (attributes : JSValue) (nm : String)
    (po : Option JSValue) (t : String) (p : Property)
    (h : parse_property_head attributes nm = .ok (po, t, p)) :
    p.name = nm ∧ p.is_primary = false ∧ p.is_indexed = false ∧
      p.object_type = "" ∧ p.type = .Bool := by
  unfold parse_property_head at h
  split at h
  · split at h
    · exact absurd h (by simp)
    · dsimp only at h
      split at h
      · simp only [Except.ok.injEq, Prod.mk.injEq] at h
        obtain ⟨-, -, h3⟩ := h
        subst h3; simp
      · split at h
        · exact absurd h (by simp)
        · simp only [Except.ok.injEq, Prod.mk.injEq] at h
          obtain ⟨-, -, h3⟩ := h
          subst h3; simp
  · split at h
    · exact absurd h (by simp)
    · simp only [Except.ok.injEq, Prod.mk.injEq] at h
      obtain ⟨-, -, h3⟩ := h
      subst h3; simp

theorem parse_property_type_ok (po : Option JSValue) (t : String)
    (prop p : Property) (h : parse_property_type po t prop = .ok p) :
    p.name = prop.name ∧ p.is_primary = prop.is_primary ∧
      p.is_indexed = prop.is_indexed := by
  unfold parse_property_type at h
  repeat' split at h
  all_goals try exact Except.noConfusion h
  all_goals (injection h with h; subst h; exact ⟨rfl, rfl, rfl⟩)

theorem parse_property_ok_base (attributes : JSValue) (nm : String)
    (d : ObjectDefaults) (p : Property) (d' : ObjectDefaults)
    (h : parse_property attributes nm d = (.ok p, d')) :
    p.name = nm ∧ p.is_primary = false := by
  unfold parse_property at h
  split at h
  · exact absurd h (by simp)
  · rename_i po t prop0 hhead
    obtain ⟨hn, hp, -, -, -⟩ := parse_property_head_ok attributes nm po t prop0 hhead
    split at h
    · exact absurd h (by simp)
    · rename_i prop htype
      obtain ⟨hn2, hp2, -⟩ := parse_property_type_ok po t prop0 prop htype
      dsimp only at h
      split at h
      · simp only [Prod.mk.injEq, Except.ok.injEq] at h
        obtain ⟨h1, -⟩ := h
        subst h1; exact ⟨hn2.trans hn, hp2.trans hp⟩
      · split at h
        · simp only [Prod.mk.injEq, Except.ok.injEq] at h
          obtain ⟨h1, -⟩ := h
          subst h1; exact ⟨hn2.trans hn, hp2.trans hp⟩
        · split at h
          · exact absurd h (by simp)
          · simp only [Prod.mk.injEq, Except.ok.injEq] at h
            obtain ⟨h1, -⟩ := h
            subst h1
            exact ⟨hn2.trans hn, hp2.trans hp⟩

theorem parse_property_head_po (a : JSValue) (nm : String)
    (po : Option JSValue) (t : String) (p : Property)
    (h : parse_property_head a nm = .ok (po, t, p)) :
    po = some a ∨ po = none := by
  unfold parse_property_head at h
  split at h
  · split at h
    · exact Except.noConfusion h
    · dsimp only at h
      split at h
      · injection h with h
        exact Or.inl (congrArg Prod.fst h).symm
      · split at h
        · exact Except.noConfusion h
        · injection h with h
          exact Or.inl (congrArg Prod.fst h).symm
  · split at h
    · exact Except.noConfusion h
    · injection h with h
      exact Or.inr (congrArg Prod.fst h).symm

theorem parse_property_head_type (a : JSValue) (nm : String)
    (po : Option JSValue) (t : String) (p : Property) (ha : a.isObject = true)
    (h : parse_property_head a nm = .ok (po, t, p)) :
    validated_get_string a "type" = .ok t ∧ po = some a := by
  unfold parse_property_head at h
  rw [if_pos ha] at h
  split at h
  · exact Except.noConfusion h
  · rename_i s hs
    dsimp only at h
    split at h
    · injection h with h
      simp only [Prod.mk.injEq] at h
      exact ⟨hs.trans (congrArg Except.ok h.2.1), h.1.symm⟩
    · split at h
      · exact Except.noConfusion h
      · injection h with h
        simp only [Prod.mk.injEq] at h
        exact ⟨hs.trans (congrArg Except.ok h.2.1), h.1.symm⟩

theorem parse_property_type_scalar (po : Option JSValue) (t : String)
    (prop : Property) (k : PropertyType) (hk : scalar_kind t = some k) :
    parse_property_type po t prop = .ok { prop with type := k } := by
  unfold scalar_kind at hk
  repeat' split at hk
  all_goals first
    | exact Option.noConfusion hk
    | (injection hk with hk; subst hk; subst_vars; simp [parse_property_type])

theorem parse_property_type_array (po : Option JSValue) (t : String)
    (prop p : Property) (h : parse_property_type po t prop = .ok p)
    (harr : p.type = .Array) :
    ∃ po2, po = some po2 ∧
      validated_get_string po2 "objectType" = .ok p.object_type := by
  unfold parse_property_type at h
  repeat' split at h
  all_goals try exact Except.noConfusion h
  all_goals injection h with h
  all_goals (subst h; simp_all)

theorem parse_property_type_other (po : Option JSValue) (t : String)
    (prop p : Property) (h : parse_property_type po t prop = .ok p)
    (h1 : p.type ≠ .Array) (h2 : p.type ≠ .Object) :
    p.object_type = prop.object_type := by
  unfold parse_property_type at h
  repeat' split at h
  all_goals try exact Except.noConfusion h
  all_goals injection h with h
  all_goals (subst h; simp_all)

theorem parse_property_final (attributes : JSValue) (nm : String)
    (d : ObjectDefaults) (po : Option JSValue) (t : String)
    (prop0 prop p : Property) (d' : ObjectDefaults)
    (hhead : parse_property_head attributes nm = .ok (po, t, prop0))
    (htype : parse_property_type po t prop0 = .ok prop)
    (hparse : parse_property attributes nm d = (.ok p, d')) :
    p.type = prop.type ∧ p.object_type = prop.object_type ∧
      p.is_nullable = prop.is_nullable ∧ p.name = prop.name := by
  unfold parse_property at hparse
  rw [hhead] at hparse
  (try dsimp only at hparse)
  rw [htype] at hparse
  (try dsimp only at hparse)
  split at hparse
  · simp only [Prod.mk.injEq, Except.ok.injEq] at hparse
    obtain ⟨h1, -⟩ := hparse
    subst h1; exact ⟨rfl, rfl, rfl, rfl⟩
  · (try dsimp only at hparse)
    split at hparse
    · simp only [Prod.mk.injEq, Except.ok.injEq] at hparse
      obtain ⟨h1, -⟩ := hparse
      subst h1; exact ⟨rfl, rfl, rfl, rfl⟩
    · split at hparse
      · simp only [Prod.mk.injEq] at hparse
        exact absurd hparse.1 (by simp)
      · simp only [Prod.mk.injEq, Except.ok.injEq] at hparse
        obtain ⟨h1, -⟩ := hparse
        subst h1; exact ⟨rfl, rfl, rfl, rfl⟩

theorem validated_to_string_named_ok (v : JSValue) (k s : String)
    (h : validated_to_string_named v k = .ok s) : v = .str s := by
  unfold validated_to_string_named at h
  split at h
  · injection h with h; subst h; rfl
  · exact Except.noConfusion h

/-! ### Claim theorems about `parse_property` -/

/-- Claim C8: every property declared with one of the scalar keywords
`bool`, `int`, `float`, `double`, `string`, `date`, `data` parses to a
Property of exactly that kind with empty `object_type`; in the bare
(non-descriptor) form additionally `is_nullable` and `is_indexed` are
false and the defaults map is untouched. -/
theorem claim8_scalar_kinds (t nm : String) (d : ObjectDefaults)
    (k : PropertyType) (fields : List (String × JSValue)) (p : Property)
    (d' : ObjectDefaults) (hk : scalar_kind t = some k) :
    parse_property (.str t) nm d = (.ok { name := nm, type := k }, d)
    ∧ (alistFind fields "type" = some (.str t) →
        parse_property (.obj fields) nm d = (.ok p, d') →
        p.type = k ∧ p.object_type = "") := by
  have hbare : parse_property (.str t) nm d = (.ok { name := nm, type := k }, d) := by
    have hhead : parse_property_head (.str t) nm = .ok (none, t, { name := nm }) := rfl
    unfold parse_property
    rw [hhead]
    (try dsimp only)
    rw [parse_property_type_scalar none t { name := nm } k hk]
  refine ⟨hbare, fun htype hparse => ?_⟩
  have hparse0 := hparse
  unfold parse_property at hparse
  split at hparse
  · exact absurd hparse (by simp)
  · rename_i po t2 prop0 hhead
    obtain ⟨hts, hpo⟩ :=
      parse_property_head_type (.obj fields) nm po t2 prop0 rfl hhead
    have ht2 : t2 = t := by
      have hv : validated_get_string (.obj fields) "type" = .ok t := by
        unfold validated_get_string
        show validated_to_string_named ((alistFind fields "type").getD .undefined) "type" = .ok t
        rw [htype]
        rfl
      have h12 := hv.symm.trans hts
      injection h12 with h12
      exact h12.symm
    rw [ht2] at hhead hparse
    split at hparse
    · exact absurd hparse (by simp)
    · rename_i prop htyped
      rw [parse_property_type_scalar po t prop0 k hk] at htyped
      injection htyped with htyped
      obtain ⟨hty, hot, -, -⟩ :=
        parse_property_final (.obj fields) nm d po t prop0 prop p d' hhead
          (by rw [parse_property_type_scalar po t prop0 k hk]; rw [htyped]) hparse0
      obtain ⟨-, -, -, hot0, -⟩ :=
        parse_property_head_ok (.obj fields) nm po t prop0 hhead
      constructor
      · rw [hty, ← htyped]
      · rw [hot, ← htyped]
        exact hot0

/-- Witness for C8 at the keyword `int`, in both the bare and the
descriptor form. -/
theorem claim8_witness :
    (parse_property (.str "int") "x" [] =
      (.ok { name := "x", type := .Int }, []))
    ∧ ({ name := "x", type := PropertyType.Int } : Property).type = .Int
    ∧ ({ name := "x", type := PropertyType.Int } : Property).object_type = "" := by
  have h := claim8_scalar_kinds "int" "x" [] .Int [("type", .str "int")]
    { name := "x", type := .Int } [] (by decide)
  exact ⟨h.1, h.2 rfl rfl⟩

/-- Claim C1: a property whose type string is none of the keywords
bool/int/float/double/string/date/data/list/object parses to an
object-reference Property with `object_type` equal to the type string and
`is_nullable` forced true — in the descriptor form regardless of an
explicit `optional` field (including `optional: false`), and likewise in
the bare form. -/
theorem claim1_forward_reference_forces_nullable (t nm : String)
    (fields : List (String × JSValue)) (d : ObjectDefaults)
    (ht : t ∉ ["bool", "int", "float", "double", "string", "date", "data",
               "list", "object"])
    (htype : alistFind fields "type" = some (.str t))
    (hopt : undefOrBool ((alistFind fields "optional").getD .undefined))
    (hidx : undefOrBool ((alistFind fields "indexed").getD .undefined)) :
    (∃ p d', parse_property (.obj fields) nm d = (.ok p, d') ∧
       p.type = .Object ∧ p.object_type = t ∧ p.is_nullable = true)
    ∧ parse_property (.str t) nm d =
        (.ok { name := nm, type := .Object, object_type := t,
               is_nullable := true }, d) := by
  simp only [List.mem_cons, List.not_mem_nil, or_false, not_or] at ht
  obtain ⟨h1, h2, h3, h4, h5, h6, h7, h8, h9⟩ := ht
  constructor
  · rcases hopt with ho | ⟨b1, ho⟩ <;> rcases hidx with hi | ⟨b2, hi⟩ <;>
      simp [parse_property, parse_property_head, parse_property_type,
        validated_get_string, validated_to_string_named,
        validated_to_boolean_named, validated_to_boolean, JSValue.getProp,
        JSValue.isObject, JSValue.isUndefined, htype, ho, hi,
        h1, h2, h3, h4, h5, h6, h7, h8, h9]
  · simp [parse_property, parse_property_head, parse_property_type,
      validated_to_string, JSValue.isObject,
      h1, h2, h3, h4, h5, h6, h7, h8, h9]

/-- Witness for C1: the forward-referenced type name `Person` with an
explicit `optional: false` still parses nullable, and so does the bare
form. -/
theorem claim1_witness :
    (∃ p d', parse_property
        (.obj [("type", .str "Person"), ("optional", .boolean false)])
        "friend" [] = (.ok p, d') ∧
      p.type = .Object ∧ p.object_type = "Person" ∧ p.is_nullable = true)
    ∧ parse_property (.str "Person") "friend" [] =
        (.ok { name := "friend", type := .Object, object_type := "Person",
               is_nullable := true }, []) := by
  exact claim1_forward_reference_forces_nullable "Person" "friend"
    [("type", .str "Person"), ("optional", .boolean false)] []
    (by decide) rfl (Or.inr ⟨false, rfl⟩) (Or.inl rfl)

/-- Counterexample to claim C4: a descriptor declaring `type: "list"` with
no `objectType` field does fail, but with the host layer's string-coercion
error for `objectType` (js_schema.hpp line 120 delegates to
`validated_get_string`), not with the SchemaError "List property must
specify 'objectType'" — that message is raised only in the bare,
non-descriptor form (line 117). -/
theorem claim4_counterexample :
    parse_property (.obj [("type", .str "list")]) "tags" [] =
      (.error "\x27objectType\x27 must be of type: string", [])
    ∧ "\x27objectType\x27 must be of type: string" ≠
        "List property must specify \x27objectType\x27" := by
  exact ⟨rfl, by decide⟩

/-- Claim C4 (amended): the bare, non-descriptor `"list"` declaration
fails with the SchemaError "List property must specify 'objectType'"; a
list descriptor without an `objectType` field also fails, but with the
host layer's string-coercion error for `objectType`; a list descriptor
with `objectType = "X"` yields a Property of the list kind with
`object_type == "X"`. -/
theorem claim4_list_object_type_amended (nm ot : String) (d : ObjectDefaults)
    (fields : List (String × JSValue)) :
    parse_property (.str "list") nm d =
      (.error "List property must specify \x27objectType\x27", d)
    ∧ (alistFind fields "type" = some (.str "list") →
       undefOrBool ((alistFind fields "optional").getD .undefined) →
       alistFind fields "objectType" = none →
       parse_property (.obj fields) nm d =
         (.error "\x27objectType\x27 must be of type: string", d))
    ∧ (alistFind fields "type" = some (.str "list") →
       alistFind fields "objectType" = some (.str ot) →
       undefOrBool ((alistFind fields "optional").getD .undefined) →
       undefOrBool ((alistFind fields "indexed").getD .undefined) →
       ∃ p d', parse_property (.obj fields) nm d = (.ok p, d') ∧
         p.type = .Array ∧ p.object_type = ot) := by
  refine ⟨rfl, fun htype hopt hot => ?_, fun htype hot hopt hidx => ?_⟩
  · rcases hopt with ho | ⟨b1, ho⟩ <;>
      simp [parse_property, parse_property_head, parse_property_type,
        validated_get_string, validated_to_string_named,
        validated_to_boolean_named, JSValue.getProp, JSValue.isObject,
        JSValue.isUndefined, htype, ho, hot]
  · rcases hopt with ho | ⟨b1, ho⟩ <;> rcases hidx with hi | ⟨b2, hi⟩ <;>
      simp [parse_property, parse_property_head, parse_property_type,
        validated_get_string, validated_to_string_named,
        validated_to_boolean_named, validated_to_boolean, JSValue.getProp,
        JSValue.isObject, JSValue.isUndefined, htype, ho, hi, hot]

/-- Witness for the amended C4: concrete bare form, a descriptor missing
`objectType`, and a descriptor with `objectType = "Tag"`. -/
theorem claim4_witness :
    parse_property (.str "list") "tags" [] =
      (.error "List property must specify \x27objectType\x27", [])
    ∧ parse_property (.obj [("type", .str "list")]) "other" [] =
        (.error "\x27objectType\x27 must be of type: string", [])
    ∧ (∃ p d', parse_property
          (.obj [("type", .str "list"), ("objectType", .str "Tag")])
          "tags" [] = (.ok p, d') ∧
        p.type = .Array ∧ p.object_type = "Tag") := by
  have h1 := claim4_list_object_type_amended "tags" "Tag" []
    [("type", .str "list"), ("objectType", .str "Tag")]
  have h2 := claim4_list_object_type_amended "other" "Tag" []
    [("type", .str "list")]
  exact ⟨h1.1, h2.2.1 rfl (Or.inl rfl) rfl,
    h1.2.2 rfl rfl (Or.inl rfl) (Or.inl rfl)⟩

/-- Counterexample to claim C9: the parser copies `objectType` verbatim
and never checks it for emptiness, so a list property with
`objectType: ""` produces a Property of the list kind whose `object_type`
is the empty string, violating the claimed non-emptiness invariant. -/
theorem claim9_counterexample :
    parse_property (.obj [("type", .str "list"), ("objectType", .str "")])
      "xs" [] = (.ok { name := "xs", type := .Array, object_type := "" }, [])
    ∧ ({ name := "xs", type := PropertyType.Array,
         object_type := "" } : Property).object_type = "" := by
  exact ⟨rfl, rfl⟩

/-- Claim C9 (amended): every Property produced by `parse_property` has
`object_type` empty unless its kind is list or object-reference, and for
the list kind `object_type` is exactly the string supplied in the
descriptor's `objectType` field — which may itself be empty, since the
parser never enforces non-emptiness. -/
theorem claim9_object_type_amended (attributes : JSValue) (nm : String)
    (d d' : ObjectDefaults) (p : Property)
    (h : parse_property attributes nm d = (.ok p, d')) :
    (p.type ≠ .Array ∧ p.type ≠ .Object → p.object_type = "")
    ∧ (p.type = .Array →
        attributes.getProp "objectType" = .str p.object_type) := by
  have h0 := h
  unfold parse_property at h
  split at h
  · exact absurd h (by simp)
  · rename_i po t prop0 hhead
    split at h
    · exact absurd h (by simp)
    · rename_i prop htyped
      obtain ⟨hty, hot, -, -⟩ :=
        parse_property_final attributes nm d po t prop0 prop p d' hhead
          htyped h0
      obtain ⟨-, -, -, hot0, -⟩ :=
        parse_property_head_ok attributes nm po t prop0 hhead
      constructor
      · intro hand
        obtain ⟨hna, hno⟩ := hand
        have hpt := parse_property_type_other po t prop0 prop htyped
          (fun hc => hna (hty.trans hc)) (fun hc => hno (hty.trans hc))
        rw [hot, hpt]
        exact hot0
      · intro harr
        obtain ⟨po2, hpo2, hgs⟩ :=
          parse_property_type_array po t prop0 prop htyped (hty.symm.trans harr)
        have hpoa : po = some attributes ∨ po = none :=
          parse_property_head_po attributes nm po t prop0 hhead
        rcases hpoa with hpa | hpa
        · rw [hpa] at hpo2
          injection hpo2 with hpo2
          subst hpo2
          have := validated_to_string_named_ok (attributes.getProp "objectType")
            "objectType" prop.object_type hgs
          rw [hot]
          exact this
        · rw [hpa] at hpo2
          exact Option.noConfusion hpo2

/-- Witness for the amended C9: a scalar property has empty
`object_type`, and a list property's `object_type` is the supplied
`objectType` string. -/
theorem claim9_witness :
    (({ name := "n", type := PropertyType.Int } : Property).type ≠ .Array ∧
        ({ name := "n", type := PropertyType.Int } : Property).type ≠ .Object →
      ({ name := "n", type := PropertyType.Int } : Property).object_type = "")
    ∧ (({ name := "n", type := PropertyType.Int } : Property).type = .Array →
        (JSValue.obj [("type", .str "int")]).getProp "objectType" =
          .str ({ name := "n", type := PropertyType.Int } : Property).object_type) := by
  exact claim9_object_type_amended (.obj [("type", .str "int")]) "n" [] []
    { name := "n", type := .Int } rfl

/-! ### Lemmas about the object-schema parser -/

theorem setPrimary_names (ps : List Property) (k : String) :
    (setPrimary ps k).map Property.name = ps.map Property.name := by
  induction ps with
  | nil => rfl
  | cons p rest ih =>
    unfold setPrimary
    split
    · simp
    · simpa using ih

theorem setPrimary_is_primary (ps : List Property) (k : String)
    (hall : ∀ p ∈ ps, p.is_primary = false)
    (hnodup : (ps.map Property.name).Nodup) :
    ∀ p ∈ setPrimary ps k, (p.is_primary = true ↔ p.name = k) := by
  induction ps with
  | nil => intro p hp; exact absurd hp (by simp [setPrimary])
  | cons p0 rest ih =>
    simp only [List.map_cons, List.nodup_cons] at hnodup
    obtain ⟨hk0, hnodup'⟩ := hnodup
    intro p hp
    unfold setPrimary at hp
    split at hp
    · rename_i hp0
      rcases List.mem_cons.mp hp with hhd | htl
      · subst hhd; simp [hp0]
      · have hf := hall p (List.mem_cons_of_mem p0 htl)
        have hne : p.name ≠ k := by
          intro hc
          exact hk0 (by
            rw [hp0, ← hc]
            exact List.mem_map_of_mem Property.name htl)
        simp [hf, hne]
    · rename_i hp0
      rcases List.mem_cons.mp hp with hhd | htl
      · rw [hhd]
        simp [hall p0 (List.mem_cons_self p0 rest), hp0]
      · exact ih (fun q hq => hall q (List.mem_cons_of_mem p0 hq)) hnodup' p htl

theorem parse_properties_array_primary (elems : List JSValue)
    (d0 d : ObjectDefaults) (ps : List Property)
    (h : parse_properties_array elems d0 = (.ok ps, d)) :
    ∀ p ∈ ps, p.is_primary = false := by
  induction elems generalizing d0 d ps with
  | nil =>
    unfold parse_properties_array at h
    simp only [Prod.mk.injEq, Except.ok.injEq] at h
    rw [← h.1]
    intro p hp
    exact absurd hp (by simp)
  | cons e rest ih =>
    unfold parse_properties_array at h
    split at h
    · exact absurd h (by simp)
    · rename_i po hpo
      split at h
      · exact absurd h (by simp)
      · rename_i nm2 hnm2
        split at h
        · exact absurd h (by simp)
        · rename_i p1 d1 hp1
          split at h
          · exact absurd h (by simp)
          · rename_i ps2 d2 hps2
            simp only [Prod.mk.injEq, Except.ok.injEq] at h
            rw [← h.1]
            intro p hp
            rcases List.mem_cons.mp hp with hhd | htl
            · rw [hhd]
              exact (parse_property_ok_base po nm2 d0 p1 d1 hp1).2
            · exact ih d1 d2 ps2 hps2 p htl

theorem parse_properties_keyed_ok (po : JSValue) (names : List String)
    (d0 d : ObjectDefaults) (ps : List Property)
    (h : parse_properties_keyed po names d0 = (.ok ps, d)) :
    ps.map Property.name = names ∧ ∀ p ∈ ps, p.is_primary = false := by
  induction names generalizing d0 d ps with
  | nil =>
    unfold parse_properties_keyed at h
    simp only [Prod.mk.injEq, Except.ok.injEq] at h
    rw [← h.1]
    exact ⟨rfl, by simp⟩
  | cons n rest ih =>
    unfold parse_properties_keyed at h
    split at h
    · exact absurd h (by simp)
    · rename_i p1 d1 hp1
      split at h
      · exact absurd h (by simp)
      · rename_i ps2 d2 hps2
        simp only [Prod.mk.injEq, Except.ok.injEq] at h
        rw [← h.1]
        obtain ⟨hn1, hpr1⟩ := parse_property_ok_base (po.getProp n) n d0 p1 d1 hp1
        obtain ⟨ihn, ihp⟩ := ih d1 d2 ps2 hps2
        refine ⟨by simp [hn1, ihn], ?_⟩
        intro p hp
        rcases List.mem_cons.mp hp with hhd | htl
        · subst hhd; exact hpr1
        · exact ihp p htl

theorem parse_properties_primary (pv : JSValue) (d : ObjectDefaults)
    (ps : List Property) (h : parse_properties pv = (.ok ps, d)) :
    ∀ p ∈ ps, p.is_primary = false := by
  unfold parse_properties at h
  split at h
  · exact parse_properties_array_primary _ [] d ps h
  · exact (parse_properties_keyed_ok _ _ [] d ps h).2

/-- Claim C2: a `primaryKey` field naming no existing property makes
`parse_object_schema` fail with the SchemaError
"Missing primary key property '<name>'"; a `primaryKey` naming an
existing property makes it succeed with exactly that property's
`is_primary` set true (and no other property's) and
`ObjectSchema.primary_key` set to the name. -/
theorem claim2_primary_key_resolution (fields : List (String × JSValue))
    (pv : JSValue) (nm k : String) (ps : List Property) (od : ObjectDefaults)
    (d : ObjectDefaultsMap) (c : ConstructorMap)
    (hname : alistFind fields "name" = some (.str nm))
    (hpropsf : alistFind fields "properties" = some pv)
    (hpv : pv.isObject = true)
    (hps : parse_properties pv = (.ok ps, od))
    (hpk : alistFind fields "primaryKey" = some (.str k))
    (hnodup : (ps.map Property.name).Nodup) :
    ((∀ p ∈ ps, p.name ≠ k) →
      parse_object_schema (.obj fields) d c =
        (.error ("Missing primary key property \x27" ++ k ++ "\x27"), d, c))
    ∧ ((∃ p ∈ ps, p.name = k) →
      ∃ os, parse_object_schema (.obj fields) d c = (.ok os, emplace d nm od, c)
        ∧ os.name = nm ∧ os.primary_key = k
        ∧ os.properties = setPrimary ps k
        ∧ ∀ p ∈ os.properties, (p.is_primary = true ↔ p.name = k)) := by
  have hro : resolve_constructor (.obj fields) = .ok (none, .obj fields) := rfl
  have hgn : validated_get_string (.obj fields) "name" = .ok nm := by
    simp [validated_get_string, JSValue.getProp, hname, validated_to_string_named]
  have hgp : validated_get_object (.obj fields) "properties"
      "ObjectSchema must have a \x27properties\x27 object." = .ok pv := by
    simp [validated_get_object, JSValue.getProp, hpropsf, hpv]
  constructor
  · intro hnone
    have hfind : ps.find? (fun p => p.name = k) = none := by
      apply List.find?_eq_none.mpr
      intro p hp
      simpa using hnone p hp
    have hrpk : resolve_primary_key { name := nm, properties := ps }
        (.obj fields) =
        .error ("Missing primary key property \x27" ++ k ++ "\x27") := by
      simp [resolve_primary_key, JSValue.getProp, hpk, JSValue.isUndefined,
        validated_to_string, primary_key_property_find, hfind]
    simp only [parse_object_schema, hro, hgn, hgp, hps, hrpk]
  · intro hsome
    obtain ⟨q0, hq0mem, hq0⟩ := hsome
    cases hfps : ps.find? (fun p => p.name = k) with
    | none =>
      exact absurd (by simpa using List.find?_eq_none.mp hfps q0 hq0mem) (by simp [hq0])
    | some q =>
      have hrpk : resolve_primary_key { name := nm, properties := ps }
          (.obj fields) =
          .ok { name := nm, properties := setPrimary ps k, primary_key := k } := by
        simp [resolve_primary_key, JSValue.getProp, hpk, JSValue.isUndefined,
          validated_to_string, primary_key_property_find, hfps]
      refine ⟨{ name := nm, properties := setPrimary ps k, primary_key := k },
        ?_, rfl, rfl, rfl, ?_⟩
      · simp only [parse_object_schema, hro, hgn, hgp, hps, hrpk]
      · exact setPrimary_is_primary ps k
          (parse_properties_primary pv od ps hps) hnodup

/-- Witness for C2: a missing primary key property fails with the
documented message, and an existing one is marked primary. -/
theorem claim2_witness :
    parse_object_schema (.obj [("name", .str "T"),
        ("properties", .obj [("x", .str "int")]),
        ("primaryKey", .str "id")]) [] [] =
      (.error "Missing primary key property \x27id\x27", [], [])
    ∧ (∃ os, parse_object_schema (.obj [("name", .str "T"),
          ("properties", .obj [("idp", .str "int"), ("y", .str "string")]),
          ("primaryKey", .str "idp")]) [] [] =
        (.ok os, emplace [] "T" [], [])
        ∧ os.name = "T" ∧ os.primary_key = "idp"
        ∧ os.properties =
            setPrimary [{ name := "idp", type := .Int },
              { name := "y", type := .String }] "idp"
        ∧ ∀ p ∈ os.properties, (p.is_primary = true ↔ p.name = "idp")) := by
  constructor
  · exact (claim2_primary_key_resolution
      [("name", .str "T"), ("properties", .obj [("x", .str "int")]),
       ("primaryKey", .str "id")]
      (.obj [("x", .str "int")]) "T" "id" [{ name := "x", type := .Int }] []
      [] [] rfl rfl rfl rfl rfl (by decide)).1 (by decide)
  · exact (claim2_primary_key_resolution
      [("name", .str "T"),
       ("properties", .obj [("idp", .str "int"), ("y", .str "string")]),
       ("primaryKey", .str "idp")]
      (.obj [("idp", .str "int"), ("y", .str "string")]) "T" "idp"
      [{ name := "idp", type := .Int }, { name := "y", type := .String }] []
      [] [] rfl rfl rfl rfl rfl (by decide)).2
      ⟨{ name := "idp", type := .Int }, by decide, by decide⟩

theorem parse_object_schema_error_state (v : JSValue)
    (d : ObjectDefaultsMap) (c : ConstructorMap) (e : String)
    (d2 : ObjectDefaultsMap) (c2 : ConstructorMap)
    (h : parse_object_schema v d c = (.error e, d2, c2)) :
    d2 = d ∧ c2 = c := by
  unfold parse_object_schema at h
  repeat' split at h
  all_goals simp_all

/-- Claim C10: `parse_object_schema` is atomic per declaration with
respect to its output maps — on any error it inserts nothing into either
`defaults_map_out` or `constructors_out`; both insertions happen only
after every failure point. -/
theorem claim10_error_atomicity (v : JSValue) (d : ObjectDefaultsMap)
    (c : ConstructorMap) (e : String) (d2 : ObjectDefaultsMap)
    (c2 : ConstructorMap)
    (h : parse_object_schema v d c = (.error e, d2, c2)) :
    d2 = d ∧ c2 = c :=
  parse_object_schema_error_state v d c e d2 c2 h

/-- Witness for C10: a declaration with no `name` fails and leaves
pre-existing entries of both maps untouched. -/
theorem claim10_witness :
    [("X", [("a", JSValue.num 1)])] = [("X", [("a", JSValue.num 1)])]
    ∧ [("Y", JSValue.undefined)] = [("Y", JSValue.undefined)] :=
  claim10_error_atomicity (.obj [("properties", .obj [])])
    [("X", [("a", .num 1)])] [("Y", .undefined)]
    "\x27name\x27 must be of type: string"
    [("X", [("a", .num 1)])] [("Y", .undefined)] rfl

theorem parse_schema_aux_error_after (pre : List JSValue) :
    ∀ (d c : List (String × _)) (oss : List ObjectSchema) d2 c2,
    parse_schema_aux pre d c = (.ok oss, d2, c2) →
    ∀ (bad badObj : JSValue) (rest : List JSValue) (e : String) db cb,
    validated_to_object bad = .ok badObj →
    parse_object_schema badObj d2 c2 = (.error e, db, cb) →
    parse_schema_aux (pre ++ bad :: rest) d c = (.error e, d2, c2) := by
  induction pre with
  | nil =>
    intro d c oss d2 c2 h bad badObj rest e db cb hbadObj hbad
    unfold parse_schema_aux at h
    simp only [Prod.mk.injEq, Except.ok.injEq] at h
    obtain ⟨-, hd, hc⟩ := h
    obtain ⟨hdb, hcb⟩ :=
      parse_object_schema_error_state badObj d2 c2 e db cb hbad
    show parse_schema_aux (bad :: rest) d c = (.error e, d2, c2)
    unfold parse_schema_aux
    rw [hbadObj]
    (try dsimp only)
    rw [hd, hc, hbad, hdb, hcb]
  | cons x xs ih =>
    intro d c oss d2 c2 h bad badObj rest e db cb hbadObj hbad
    unfold parse_schema_aux at h
    split at h
    · exact absurd h (by simp)
    · rename_i oso hoso
      split at h
      · exact absurd h (by simp)
      · rename_i os d1 c1 hos
        split at h
        · exact absurd h (by simp)
        · rename_i oss2 d3 c3 hrest
          simp only [Prod.mk.injEq, Except.ok.injEq] at h
          obtain ⟨-, hd, hc⟩ := h
          rw [← hd, ← hc] at hbad
          show parse_schema_aux (x :: (xs ++ bad :: rest)) d c = (.error e, d2, c2)
          unfold parse_schema_aux
          rw [hoso]
          (try dsimp only)
          rw [hos]
          (try dsimp only)
          rw [ih d1 c1 oss2 d3 c3 hrest bad badObj rest e db cb hbadObj hbad,
            hd, hc]

/-- Claim C5: when `parse_schema` fails on a later declaration, it raises
that declaration's error and returns no Schema, while the
`defaults_map_out`/`constructors_out` entries committed by the earlier,
already-succeeded declarations remain in the maps (no rollback). -/
theorem claim5_partial_commit (pre : List JSValue) (bad badObj : JSValue)
    (rest : List JSValue) (d : ObjectDefaultsMap) (c : ConstructorMap)
    (oss : List ObjectSchema) (d2 : ObjectDefaultsMap) (c2 : ConstructorMap)
    (e : String) (db : ObjectDefaultsMap) (cb : ConstructorMap)
    (hpre : parse_schema_aux pre d c = (.ok oss, d2, c2))
    (hbadObj : validated_to_object bad = .ok badObj)
    (hbad : parse_object_schema badObj d2 c2 = (.error e, db, cb)) :
    parse_schema (.arr (pre ++ bad :: rest)) d c = (.error e, d2, c2) := by
  show parse_schema_aux (pre ++ bad :: rest) d c = (.error e, d2, c2)
  exact parse_schema_aux_error_after pre d c oss d2 c2 hpre
    bad badObj rest e db cb hbadObj hbad

/-- Witness for C5: a two-declaration schema whose first declaration
succeeds (committing a default for `A.x`) and whose second lacks
`properties`: the parse raises the second declaration's error while `A`'s
defaults entry stays committed. -/
theorem claim5_witness :
    parse_schema (.arr
      [.obj [("name", .str "A"),
             ("properties", .obj [("x", .obj [("type", .str "int"),
                                              ("default", .num 7)])])],
       .obj [("name", .str "B")]]) [] [] =
      (.error "ObjectSchema must have a \x27properties\x27 object.",
       [("A", [("x", .num 7)])], []) := by
  exact claim5_partial_commit
    [.obj [("name", .str "A"),
           ("properties", .obj [("x", .obj [("type", .str "int"),
                                            ("default", .num 7)])])]]
    (.obj [("name", .str "B")]) (.obj [("name", .str "B")]) [] [] []
    [{ name := "A",
       properties := [{ name := "x", type := .Int }] }]
    [("A", [("x", .num 7)])] []
    "ObjectSchema must have a \x27properties\x27 object."
    [("A", [("x", .num 7)])] [] rfl rfl rfl

/-! ### Lemmas about the array-to-dict adapter -/

theorem alistFind_setField_self (dict : List (String × JSValue)) (k : String)
    (v : JSValue) : alistFind (setField dict k v) k = some v := by
  induction dict with
  | nil => simp [setField, alistFind]
  | cons kv rest ih =>
    obtain ⟨k0, w⟩ := kv
    unfold setField
    split
    · rename_i hk0
      simp [alistFind, hk0]
    · rename_i hk0
      simp [alistFind, hk0, ih]

theorem alistFind_setField_other (dict : List (String × JSValue))
    (k k2 : String) (v : JSValue) (hne : k2 ≠ k) :
    alistFind (setField dict k v) k2 = alistFind dict k2 := by
  induction dict with
  | nil => simp [setField, alistFind, Ne.symm hne]
  | cons kv rest ih =>
    obtain ⟨k0, w⟩ := kv
    unfold setField
    split
    · rename_i hk0
      subst hk0
      simp [alistFind, Ne.symm hne]
    · simp [alistFind, ih]

theorem fillDict_not_mem (ps : List Property) (vs : List JSValue)
    (dict : List (String × JSValue)) (k : String)
    (hk : k ∉ ps.map Property.name) :
    alistFind (fillDict ps vs dict) k = alistFind dict k := by
  induction ps generalizing vs dict with
  | nil => rfl
  | cons p rest ih =>
    simp only [List.map_cons, List.mem_cons, not_or] at hk
    obtain ⟨hk1, hk2⟩ := hk
    cases vs with
    | nil => rfl
    | cons v vs2 =>
      unfold fillDict
      rw [ih vs2 (setField dict p.name v) hk2]
      exact alistFind_setField_other dict p.name k v hk1

theorem fillDict_get (ps : List Property) (vs : List JSValue)
    (dict : List (String × JSValue))
    (hnodup : (ps.map Property.name).Nodup) :
    ∀ i (h1 : i < ps.length) (h2 : i < vs.length),
      alistFind (fillDict ps vs dict) (ps.get ⟨i, h1⟩).name =
        some (vs.get ⟨i, h2⟩) := by
  induction ps generalizing vs dict with
  | nil => intro i h1 h2; exact absurd h1 (by simp)
  | cons p rest ih =>
    simp only [List.map_cons, List.nodup_cons] at hnodup
    obtain ⟨hp, hnodup2⟩ := hnodup
    intro i h1 h2
    cases vs with
    | nil => exact absurd h2 (by simp)
    | cons v vs2 =>
      cases i with
      | zero =>
        show alistFind (fillDict (p :: rest) (v :: vs2) dict) p.name = some v
        unfold fillDict
        rw [fillDict_not_mem rest vs2 (setField dict p.name v) p.name hp]
        exact alistFind_setField_self dict p.name v
      | succ j =>
        show alistFind (fillDict (p :: rest) (v :: vs2) dict)
          (rest.get ⟨j, _⟩).name = some (vs2.get ⟨j, _⟩)
        unfold fillDict
        exact ih vs2 (setField dict p.name v) hnodup2 j
          (Nat.lt_of_succ_lt_succ h1) (Nat.lt_of_succ_lt_succ h2)

/-- Claim C3: `dict_for_property_array` fails with
"Array must contain values for all object properties" exactly when the
array length differs from the property count; on matching lengths it
returns a fresh mapping sending the i-th property's name (in stored
declaration order) to the i-th array element. -/
theorem claim3_dict_for_property_array (os : ObjectSchema)
    (vs : List JSValue) (hnodup : (os.properties.map Property.name).Nodup) :
    (vs.length ≠ os.properties.length →
      dict_for_property_array os (.arr vs) =
        .error "Array must contain values for all object properties")
    ∧ (vs.length = os.properties.length →
      ∃ dict, dict_for_property_array os (.arr vs) = .ok dict ∧
        ∀ i (h1 : i < os.properties.length) (h2 : i < vs.length),
          alistFind dict (os.properties.get ⟨i, h1⟩).name =
            some (vs.get ⟨i, h2⟩)) := by
  constructor
  · intro hne
    simp [dict_for_property_array, validated_get_length, Ne.symm hne]
  · intro heq
    refine ⟨fillDict os.properties vs [], ?_, ?_⟩
    · simp [dict_for_property_array, validated_get_length, heq.symm]
    · exact fillDict_get os.properties vs [] hnodup

/-- Witness for C3: a three-property schema given a two-element array
fails, and given a three-element array maps each property name to the
element at the same position. -/
theorem claim3_witness :
    (dict_for_property_array sampleSchema3 (.arr [.num 1, .num 2]) =
      .error "Array must contain values for all object properties")
    ∧ (∃ dict, dict_for_property_array sampleSchema3
        (.arr [.num 1, .num 2, .num 3]) = .ok dict ∧
        ∀ i (h1 : i < sampleSchema3.properties.length)
          (h2 : i < ([JSValue.num 1, JSValue.num 2, JSValue.num 3]).length),
          alistFind dict (sampleSchema3.properties.get ⟨i, h1⟩).name =
            some (([JSValue.num 1, JSValue.num 2, JSValue.num 3]).get ⟨i, h2⟩)) := by
  constructor
  · exact (claim3_dict_for_property_array sampleSchema3
      [.num 1, .num 2] (by decide)).1 (by decide)
  · exact (claim3_dict_for_property_array sampleSchema3
      [.num 1, .num 2, .num 3] (by decide)).2 rfl

theorem resolve_primary_key_names (os os2 : ObjectSchema) (oso : JSValue)
    (h : resolve_primary_key os oso = .ok os2) :
    os2.properties.map Property.name = os.properties.map Property.name := by
  unfold resolve_primary_key at h
  (try dsimp only at h)
  split at h
  · injection h with h
    rw [← h]
  · (try dsimp only at h)
    split at h
    · exact Except.noConfusion h
    · (try dsimp only at h)
      split at h
      · exact Except.noConfusion h
      · injection h with h
        rw [← h]
        exact setPrimary_names os.properties _

theorem parse_object_schema_props_names (fields : List (String × JSValue))
    (pv : JSValue) (ps : List Property) (od : ObjectDefaults)
    (d d2 : ObjectDefaultsMap) (c c2 : ConstructorMap) (os : ObjectSchema)
    (hpropsf : alistFind fields "properties" = some pv)
    (hpv : pv.isObject = true)
    (hps : parse_properties pv = (.ok ps, od))
    (h : parse_object_schema (.obj fields) d c = (.ok os, d2, c2)) :
    os.properties.map Property.name = ps.map Property.name := by
  have hrc : resolve_constructor (.obj fields) = .ok (none, .obj fields) := rfl
  have hgo : validated_get_object (.obj fields) "properties"
      "ObjectSchema must have a \x27properties\x27 object." = .ok pv := by
    simp [validated_get_object, JSValue.getProp, hpropsf, hpv]
  unfold parse_object_schema at h
  rw [hrc] at h
  (try dsimp only at h)
  split at h
  · exact absurd h (by simp)
  · rename_i nm hnm
    rw [hgo] at h
    (try dsimp only at h)
    rw [hps] at h
    (try dsimp only at h)
    split at h
    · exact absurd h (by simp)
    · rename_i os2 hos2
      simp only [Prod.mk.injEq, Except.ok.injEq] at h
      rw [← h.1]
      exact resolve_primary_key_names { name := nm, properties := ps } os2
        (.obj fields) hos2

/-- Counterexample to claim C6: property-name uniqueness is not enforced
for the ordered-list shape — an array with two descriptors both named `a`
parses successfully into an ObjectSchema with duplicate property names
(js_schema.hpp lines 171–178 append each element with no duplicate
check). -/
theorem claim6_counterexample :
    parse_object_schema (.obj [("name", .str "T"),
        ("properties", .arr [.obj [("name", .str "a"), ("type", .str "int")],
                             .obj [("name", .str "a"), ("type", .str "int")]])])
      [] [] =
      (.ok { name := "T",
             properties := [{ name := "a", type := .Int },
                            { name := "a", type := .Int }] },
       [("T", [])], [])
    ∧ ¬ (([{ name := "a", type := PropertyType.Int },
           { name := "a", type := PropertyType.Int }] : List Property).map
          Property.name).Nodup := by
  exact ⟨rfl, by decide⟩

/-- Claim C6 (amended): an ObjectSchema parsed from the name-keyed
property shape has pairwise-unique property names whenever the host
object's enumerated keys are distinct (which a JS object guarantees);
the ordered-list shape is not checked for duplicate names. -/
theorem claim6_unique_names_amended (fields pf : List (String × JSValue))
    (d d2 : ObjectDefaultsMap) (c c2 : ConstructorMap) (os : ObjectSchema)
    (hpropsf : alistFind fields "properties" = some (.obj pf))
    (hnodup : (pf.map Prod.fst).Nodup)
    (h : parse_object_schema (.obj fields) d c = (.ok os, d2, c2)) :
    (os.properties.map Property.name).Nodup := by
  cases hps : parse_properties (.obj pf) with
  | mk r od =>
    cases r with
    | error e =>
      exfalso
      have hrc : resolve_constructor (.obj fields) = .ok (none, .obj fields) := rfl
      have hgo : validated_get_object (.obj fields) "properties"
          "ObjectSchema must have a \x27properties\x27 object." =
          .ok (.obj pf) := by
        simp [validated_get_object, JSValue.getProp, hpropsf, JSValue.isObject]
      unfold parse_object_schema at h
      rw [hrc] at h
      (try dsimp only at h)
      split at h
      · exact absurd h (by simp)
      · rw [hgo] at h
        (try dsimp only at h)
        rw [hps] at h
        (try dsimp only at h)
        exact absurd h (by simp)
    | ok ps =>
      have hnames := parse_object_schema_props_names fields (.obj pf) ps od
        d d2 c c2 os hpropsf rfl hps h
      rw [hnames]
      have hkeyed : parse_properties_keyed (.obj pf) ((.obj pf : JSValue).propNames)
          [] = (.ok ps, od) := hps
      have := (parse_properties_keyed_ok (.obj pf) ((.obj pf : JSValue).propNames)
        [] od ps hkeyed).1
      rw [this]
      exact hnodup

/-- Witness for the amended C6: a keyed two-property declaration yields
unique property names. -/
theorem claim6_witness :
    ((ObjectSchema.properties
      { name := "T",
        properties := [{ name := "x", type := .Int },
                       { name := "y", type := .String }] }).map
      Property.name).Nodup := by
  exact claim6_unique_names_amended
    [("name", .str "T"),
     ("properties", .obj [("x", .str "int"), ("y", .str "string")])]
    [("x", .str "int"), ("y", .str "string")] [] (emplace [] "T" []) [] []
    { name := "T",
      properties := [{ name := "x", type := .Int },
                     { name := "y", type := .String }] }
    rfl (by decide) rfl

theorem alistFind_cons (k0 : String) (v : JSValue)
    (fs : List (String × JSValue)) (key : String) :
    alistFind ((k0, v) :: fs) key =
      if k0 = key then some v else alistFind fs key := rfl

theorem parse_property_type_cons_name (v : JSValue)
    (fs : List (String × JSValue)) (t : String) (prop : Property) :
    parse_property_type (some (.obj (("name", v) :: fs))) t prop =
    parse_property_type (some (.obj fs)) t prop := by
  simp only [parse_property_type, validated_get_string, JSValue.getProp,
    alistFind_cons, String.reduceEq, reduceIte]

theorem parse_property_obj_cons_name (v : JSValue)
    (fs : List (String × JSValue)) (nm : String) (d : ObjectDefaults) :
    parse_property (.obj (("name", v) :: fs)) nm d =
    parse_property (.obj fs) nm d := by
  unfold parse_property parse_property_head
  simp only [JSValue.isObject, validated_get_string, JSValue.getProp,
    alistFind_cons, String.reduceEq, reduceIte, if_true]
  cases hT : validated_to_string_named ((alistFind fs "type").getD .undefined)
      "type" with
  | error e => rfl
  | ok t =>
    (try dsimp only)
    cases hU : ((alistFind fs "optional").getD JSValue.undefined).isUndefined with
    | true =>
      (try simp only [eq_self_iff_true, if_true])
      (try dsimp only)
      rw [parse_property_type_cons_name]
      cases parse_property_type (some (.obj fs)) t { name := nm } with
      | error e => rfl
      | ok prop =>
        (try dsimp only)
        simp only [alistFind_cons, String.reduceEq, reduceIte]
    | false =>
      (try simp only [Bool.false_eq_true, if_false])
      (try dsimp only)
      cases validated_to_boolean_named ((alistFind fs "optional").getD .undefined)
          "optional" with
      | error e => rfl
      | ok b =>
        (try dsimp only)
        rw [parse_property_type_cons_name]
        cases parse_property_type (some (.obj fs)) t
            { name := nm, is_nullable := b } with
        | error e => rfl
        | ok prop =>
          (try dsimp only)
          simp only [alistFind_cons, String.reduceEq, reduceIte]

theorem parse_properties_keyed_skip (n0 : String) (v0 : JSValue)
    (pf : List (String × JSValue)) (names : List String)
    (hn0 : n0 ∉ names) :
    ∀ d, parse_properties_keyed (.obj ((n0, v0) :: pf)) names d =
      parse_properties_keyed (.obj pf) names d := by
  induction names with
  | nil => intro d; rfl
  | cons n rest ih =>
    simp only [List.mem_cons, not_or] at hn0
    obtain ⟨hne, hn0r⟩ := hn0
    intro d
    have hget : JSValue.getProp (.obj ((n0, v0) :: pf)) n =
        JSValue.getProp (.obj pf) n := by
      simp [JSValue.getProp, alistFind_cons, hne]
    unfold parse_properties_keyed
    rw [hget]
    simp only [ih hn0r]

theorem parse_properties_shapes
    (decls : List (String × List (String × JSValue)))
    (hnodup : (decls.map Prod.fst).Nodup) :
    ∀ d, parse_properties_array
      (decls.map fun nd => JSValue.obj (("name", .str nd.1) :: nd.2)) d =
    parse_properties_keyed (.obj (decls.map fun nd => (nd.1, JSValue.obj nd.2)))
      (decls.map Prod.fst) d := by
  induction decls with
  | nil => intro d; rfl
  | cons nd rest ih =>
    obtain ⟨n, fs⟩ := nd
    simp only [List.map_cons, List.nodup_cons] at hnodup
    obtain ⟨hn, hnodup2⟩ := hnodup
    intro d
    simp only [List.map_cons]
    unfold parse_properties_array parse_properties_keyed
    have hobj : validated_to_object (JSValue.obj (("name", JSValue.str n) :: fs)) =
        .ok (.obj (("name", .str n) :: fs)) := rfl
    have hnm : validated_get_string (JSValue.obj (("name", JSValue.str n) :: fs))
        "name" = .ok n := rfl
    have hget : JSValue.getProp
        (.obj ((n, JSValue.obj fs) :: rest.map fun nd => (nd.1, JSValue.obj nd.2)))
        n = .obj fs := by
      simp [JSValue.getProp, alistFind_cons]
    rw [hobj]
    (try dsimp only)
    rw [hnm]
    (try dsimp only)
    rw [hget, parse_property_obj_cons_name (JSValue.str n) fs n d]
    cases hp : parse_property (.obj fs) n d with
    | mk r d1 =>
      cases r with
      | error e => rfl
      | ok p =>
        (try dsimp only)
        rw [parse_properties_keyed_skip n (JSValue.obj fs)
          (rest.map fun nd => (nd.1, JSValue.obj nd.2)) (rest.map Prod.fst) hn d1]
        rw [ih hnodup2 d1]

/-- Claim C7: an ordered list of property descriptors (each carrying its
own `name`) and the equivalent name-keyed mapping with the same names,
declarations and iteration order produce identical results from
`parse_object_schema`, and in the keyed shape (hence in both) the stored
property order is the declaration/iteration order of the input. -/
theorem claim7_shape_agreement (N : String)
    (decls : List (String × List (String × JSValue)))
    (d : ObjectDefaultsMap) (c : ConstructorMap)
    (hnodup : (decls.map Prod.fst).Nodup) :
    parse_object_schema (.obj [("name", .str N),
      ("properties", .arr (decls.map fun nd =>
        JSValue.obj (("name", .str nd.1) :: nd.2)))]) d c =
    parse_object_schema (.obj [("name", .str N),
      ("properties", .obj (decls.map fun nd => (nd.1, JSValue.obj nd.2)))]) d c
    ∧ ∀ os d2 c2,
      parse_object_schema (.obj [("name", .str N),
        ("properties", .obj (decls.map fun nd => (nd.1, JSValue.obj nd.2)))])
          d c = (.ok os, d2, c2) →
      os.properties.map Property.name = decls.map Prod.fst := by
  have hstep : ∀ pv : JSValue, pv.isObject = true →
      parse_object_schema (.obj [("name", .str N), ("properties", pv)]) d c =
        (match parse_properties pv with
         | (.error e, _) => (.error e, d, c)
         | (.ok props, od) =>
           (.ok { name := N, properties := props }, emplace d N od, c)) := by
    intro pv hpv
    have hrc : resolve_constructor
        (.obj [("name", .str N), ("properties", pv)]) =
        .ok (none, .obj [("name", .str N), ("properties", pv)]) := rfl
    have hgn : validated_get_string
        (.obj [("name", .str N), ("properties", pv)]) "name" = .ok N := rfl
    have hgo : validated_get_object
        (.obj [("name", .str N), ("properties", pv)]) "properties"
        "ObjectSchema must have a \x27properties\x27 object." = .ok pv := by
      simp [validated_get_object, JSValue.getProp, alistFind_cons, hpv]
    unfold parse_object_schema
    rw [hrc]
    (try dsimp only)
    rw [hgn]
    (try dsimp only)
    rw [hgo]
    (try dsimp only)
    cases hps : parse_properties pv with
    | mk r od =>
      cases r with
      | error e => rfl
      | ok props => rfl
  have hnames : (decls.map fun nd => (nd.1, JSValue.obj nd.2)).map Prod.fst =
      decls.map Prod.fst := by
    simp
  have hpp : parse_properties
      (.arr (decls.map fun nd => JSValue.obj (("name", .str nd.1) :: nd.2))) =
      parse_properties (.obj (decls.map fun nd => (nd.1, JSValue.obj nd.2))) := by
    show parse_properties_array
        (decls.map fun nd => JSValue.obj (("name", .str nd.1) :: nd.2)) [] = _
    rw [parse_properties_shapes decls hnodup []]
    show parse_properties_keyed _ (decls.map Prod.fst) [] = parse_properties_keyed _
      ((JSValue.obj (decls.map fun nd => (nd.1, JSValue.obj nd.2))).propNames) []
    rw [show (JSValue.obj (decls.map fun nd => (nd.1, JSValue.obj nd.2))).propNames
        = (decls.map fun nd => (nd.1, JSValue.obj nd.2)).map Prod.fst from rfl,
      hnames]
  constructor
  · rw [hstep (.arr (decls.map fun nd =>
        JSValue.obj (("name", .str nd.1) :: nd.2))) rfl,
      hstep (.obj (decls.map fun nd => (nd.1, JSValue.obj nd.2))) rfl, hpp]
  · intro os d2 c2 h
    cases hps : parse_properties
        (.obj (decls.map fun nd => (nd.1, JSValue.obj nd.2))) with
    | mk r od =>
      cases r with
      | error e =>
        rw [hstep (.obj (decls.map fun nd => (nd.1, JSValue.obj nd.2))) rfl,
          hps] at h
        exact absurd h (by simp)
      | ok props =>
        have hfind : alistFind
            [("name", JSValue.str N),
             ("properties", JSValue.obj (decls.map fun nd => (nd.1, JSValue.obj nd.2)))]
            "properties" =
            some (.obj (decls.map fun nd => (nd.1, JSValue.obj nd.2))) := rfl
        have hn := parse_object_schema_props_names
          [("name", .str N),
           ("properties", .obj (decls.map fun nd => (nd.1, JSValue.obj nd.2)))]
          (.obj (decls.map fun nd => (nd.1, JSValue.obj nd.2))) props od
          d d2 c c2 os hfind rfl hps h
        rw [hn]
        have hps2 : parse_properties_keyed
            (.obj (decls.map fun nd => (nd.1, JSValue.obj nd.2)))
            ((JSValue.obj (decls.map fun nd => (nd.1, JSValue.obj nd.2))).propNames)
            [] = (.ok props, od) := hps
        have hkeyed := (parse_properties_keyed_ok
          (.obj (decls.map fun nd => (nd.1, JSValue.obj nd.2)))
          ((JSValue.obj (decls.map fun nd => (nd.1, JSValue.obj nd.2))).propNames)
          [] od props hps2).1
        rw [hkeyed]
        exact hnames

/-- Witness for C7: a two-property type declared as an array of named
descriptors and as the equivalent keyed mapping parse identically, with
properties stored in declaration order. -/
theorem claim7_witness :
    parse_object_schema (.obj [("name", .str "P"),
      ("properties", .arr
        [.obj [("name", .str "x"), ("type", .str "int")],
         .obj [("name", .str "y"), ("type", .str "string")]])]) [] [] =
    parse_object_schema (.obj [("name", .str "P"),
      ("properties", .obj [("x", .obj [("type", .str "int")]),
                           ("y", .obj [("type", .str "string")])])]) [] []
    ∧ (ObjectSchema.properties
        { name := "P",
          properties := [{ name := "x", type := .Int },
                         { name := "y", type := .String }] }).map
        Property.name = ["x", "y"] := by
  have h := claim7_shape_agreement "P"
    [("x", [("type", .str "int")]), ("y", [("type", .str "string")])] [] []
    (by decide)
  exact ⟨h.1, h.2
    { name := "P",
      properties := [{ name := "x", type := .Int },
                     { name := "y", type := .String }] }
    (emplace [] "P" []) [] rfl⟩

end RealmJS
